import Mathlib

/-!
Verification of the Medflash annotation and export subsystem.

The definitions below are shallow embeddings of the TypeScript source:
`src/utils/imageProcessing.ts` (coordinate normalizer `getRect`, annotation
renderer `cropAndAnnotateImage`), `src/utils/anki.ts` (CSV/TSV/Markdown/ZIP
export serializers) and `src/App.tsx` (`handleGenerate` image-pipeline
orchestrator).  JavaScript numbers are modelled as rationals, `Math.floor` /
`Math.ceil` as `Int.floor` / `Int.ceil`, strings as Lean strings, and the
canvas drawing calls as an explicit trace of drawing operations.
-/

/-- A 4-tuple box `[ymin, xmin, ymax, xmax]`, the shape destructured by
`getRect` in `src/utils/imageProcessing.ts`. -/
structure Box where
  ymin : ℚ
  xmin : ℚ
  ymax : ℚ
  xmax : ℚ
deriving DecidableEq, Repr

/-- The pixel rectangle `{x, y, w, h}` returned by `getRect`. -/
structure Rect where
  x : ℤ
  y : ℤ
  w : ℤ
  h : ℤ
deriving DecidableEq, Repr

/-- Per-component normalization inside `getRect`:
`if (c > 1) c /= 1000` — a signed comparison, not a magnitude test. -/
def normComp (c : ℚ) : ℚ := if c > 1 then c / 1000 else c

/-- `getRect` from `cropAndAnnotateImage` (src/utils/imageProcessing.ts):
each of the four components is divided by 1000 when it exceeds 1, then
`x = floor(xmin*W)`, `y = floor(ymin*H)`, `w = ceil((xmax-xmin)*W)`,
`h = ceil((ymax-ymin)*H)`. -/
def getRect (box : Box) (targetW targetH : ℚ) : Rect :=
  let ymin := normComp box.ymin
  let xmin := normComp box.xmin
  let ymax := normComp box.ymax
  let xmax := normComp box.xmax
  { x := ⌊xmin * targetW⌋
    y := ⌊ymin * targetH⌋
    w := ⌈(xmax - xmin) * targetW⌉
    h := ⌈(ymax - ymin) * targetH⌉ }

/-- All four components of a box lie in the closed interval `[lo, hi]`. -/
def boxIn (box : Box) (lo hi : ℚ) : Prop :=
  lo ≤ box.ymin ∧ box.ymin ≤ hi ∧
  lo ≤ box.xmin ∧ box.xmin ≤ hi ∧
  lo ≤ box.ymax ∧ box.ymax ≤ hi ∧
  lo ≤ box.xmax ∧ box.xmax ≤ hi

instance (box : Box) (lo hi : ℚ) : Decidable (boxIn box lo hi) := by
  unfold boxIn; infer_instance

lemma normComp_mem (c : ℚ) (h0 : 0 ≤ c) (h1 : c ≤ 1000) :
    0 ≤ normComp c ∧ normComp c ≤ 1 := by
  unfold normComp
  split
  · rename_i h
    constructor
    · positivity
    · rw [div_le_one (by norm_num)]; exact h1
  · rename_i h
    exact ⟨h0, le_of_not_lt h⟩

lemma floor_add_ceil_le (a b : ℚ) (n : ℤ) (hb : b ≤ (n : ℚ)) :
    ⌊a⌋ + ⌈b - a⌉ ≤ n := by
  have h1 : ⌈b - a⌉ ≤ ⌈b⌉ + ⌈-a⌉ := by
    calc ⌈b - a⌉ = ⌈b + -a⌉ := by ring_nf
    _ ≤ ⌈b⌉ + ⌈-a⌉ := Int.ceil_add_le b (-a)
  have h2 : ⌈-a⌉ = -⌊a⌋ := Int.ceil_neg
  have h3 : ⌈b⌉ ≤ n := Int.ceil_le.mpr hb
  omega

/-- Bounds of `getRect` for a box with normalized components in `[0,1]`:
the rectangle lies within the `W × H` canvas. -/
lemma getRect_bounds (box : Box) (W H : ℤ)
    (hy1 : 0 ≤ normComp box.ymin) (hy2 : normComp box.ymin ≤ 1)
    (hx1 : 0 ≤ normComp box.xmin) (hx2 : normComp box.xmin ≤ 1)
    (hY2 : normComp box.ymax ≤ 1) (hX2 : normComp box.xmax ≤ 1)
    (hW : 0 < W) (hH : 0 < H) :
    0 ≤ (getRect box (W : ℚ) (H : ℚ)).x ∧ 0 ≤ (getRect box (W : ℚ) (H : ℚ)).y ∧
    (getRect box (W : ℚ) (H : ℚ)).x + (getRect box (W : ℚ) (H : ℚ)).w ≤ W ∧
    (getRect box (W : ℚ) (H : ℚ)).y + (getRect box (W : ℚ) (H : ℚ)).h ≤ H := by
  have hWQ : (0 : ℚ) ≤ (W : ℚ) := by exact_mod_cast le_of_lt hW
  have hHQ : (0 : ℚ) ≤ (H : ℚ) := by exact_mod_cast le_of_lt hH
  refine ⟨?_, ?_, ?_, ?_⟩
  · exact Int.floor_nonneg.mpr (mul_nonneg hx1 hWQ)
  · exact Int.floor_nonneg.mpr (mul_nonneg hy1 hHQ)
  · have hsub : (normComp box.xmax - normComp box.xmin) * (W : ℚ)
        = normComp box.xmax * W - normComp box.xmin * W := by ring
    show ⌊normComp box.xmin * W⌋ + ⌈(normComp box.xmax - normComp box.xmin) * (W : ℚ)⌉ ≤ W
    rw [hsub]
    exact floor_add_ceil_le _ _ W
      (le_trans (mul_le_of_le_one_left hWQ hX2) (le_refl _))
  · have hsub : (normComp box.ymax - normComp box.ymin) * (H : ℚ)
        = normComp box.ymax * H - normComp box.ymin * H := by ring
    show ⌊normComp box.ymin * H⌋ + ⌈(normComp box.ymax - normComp box.ymin) * (H : ℚ)⌉ ≤ H
    rw [hsub]
    exact floor_add_ceil_le _ _ H
      (le_trans (mul_le_of_le_one_left hHQ hY2) (le_refl _))

/-- Claim C2: for every input box whose four components all lie in `[0,1]`,
or all lie in `[0,1000]`, and every positive integer target width and
height, the Coordinate Normalizer's output rectangle lies within the target
canvas bounds: `0 ≤ x`, `0 ≤ y`, `x + w ≤ width`, `y + h ≤ height`. -/
theorem getRect_within_canvas (box : Box) (W H : ℤ)
    (hW : 0 < W) (hH : 0 < H)
    (hbox : boxIn box 0 1 ∨ boxIn box 0 1000) :
    0 ≤ (getRect box (W : ℚ) (H : ℚ)).x ∧ 0 ≤ (getRect box (W : ℚ) (H : ℚ)).y ∧
    (getRect box (W : ℚ) (H : ℚ)).x + (getRect box (W : ℚ) (H : ℚ)).w ≤ W ∧
    (getRect box (W : ℚ) (H : ℚ)).y + (getRect box (W : ℚ) (H : ℚ)).h ≤ H := by
  have hwide : boxIn box 0 1000 := by
    rcases hbox with h | h
    · obtain ⟨a1, a2, b1, b2, c1, c2, d1, d2⟩ := h
      exact ⟨a1, le_trans a2 (by norm_num), b1, le_trans b2 (by norm_num),
             c1, le_trans c2 (by norm_num), d1, le_trans d2 (by norm_num)⟩
    · exact h
  obtain ⟨a1, a2, b1, b2, c1, c2, d1, d2⟩ := hwide
  obtain ⟨hy1, hy2⟩ := normComp_mem box.ymin a1 a2
  obtain ⟨hx1, hx2⟩ := normComp_mem box.xmin b1 b2
  obtain ⟨_, hY2⟩ := normComp_mem box.ymax c1 c2
  obtain ⟨_, hX2⟩ := normComp_mem box.xmax d1 d2
  exact getRect_bounds box W H hy1 hy2 hx1 hx2 hY2 hX2 hW hH

/-- Witness for C2 at the concrete box `[100,100,200,200]` on a 1000×1000
canvas. -/
theorem getRect_within_canvas_witness :
    (0 : ℤ) < 1000 ∧
    (boxIn ⟨100, 100, 200, 200⟩ 0 1 ∨ boxIn ⟨100, 100, 200, 200⟩ 0 1000) ∧
    (0 ≤ (getRect ⟨100, 100, 200, 200⟩ (1000 : ℚ) (1000 : ℚ)).x ∧
     0 ≤ (getRect ⟨100, 100, 200, 200⟩ (1000 : ℚ) (1000 : ℚ)).y ∧
     (getRect ⟨100, 100, 200, 200⟩ (1000 : ℚ) (1000 : ℚ)).x +
       (getRect ⟨100, 100, 200, 200⟩ (1000 : ℚ) (1000 : ℚ)).w ≤ 1000 ∧
     (getRect ⟨100, 100, 200, 200⟩ (1000 : ℚ) (1000 : ℚ)).y +
       (getRect ⟨100, 100, 200, 200⟩ (1000 : ℚ) (1000 : ℚ)).h ≤ 1000) :=
  ⟨by norm_num, Or.inr (by unfold boxIn; norm_num),
   getRect_within_canvas ⟨100, 100, 200, 200⟩ 1000 1000 (by norm_num) (by norm_num)
     (Or.inr (by unfold boxIn; norm_num))⟩

/-- Counterexample for C3: the degenerate box with all components `1/2` on a
100×100 canvas yields a rectangle of width and height 0, not at least 1
pixel. -/
theorem getRect_degenerate_counterexample :
    (getRect ⟨1/2, 1/2, 1/2, 1/2⟩ 100 100).w = 0 ∧
    (getRect ⟨1/2, 1/2, 1/2, 1/2⟩ 100 100).h = 0 ∧
    ¬ (1 ≤ (getRect ⟨1/2, 1/2, 1/2, 1/2⟩ 100 100).w) := by
  norm_num [getRect, normComp]

/-- Claim C3 (amended): on a positive-size canvas the Normalizer produces an
extent of at least 1 pixel in an axis whenever the normalized range in that
axis is positive, and a degenerate box (min = max in an axis) produces an
extent of exactly 0 in that axis (the renderer then draws a minimum-size
badge rather than crashing, but the rectangle itself has zero extent). -/
theorem getRect_extent (box : Box) (W H : ℤ) (hW : 0 < W) (hH : 0 < H) :
    (normComp box.xmin < normComp box.xmax → 1 ≤ (getRect box (W : ℚ) (H : ℚ)).w) ∧
    (normComp box.ymin < normComp box.ymax → 1 ≤ (getRect box (W : ℚ) (H : ℚ)).h) ∧
    (box.xmin = box.xmax → (getRect box (W : ℚ) (H : ℚ)).w = 0) ∧
    (box.ymin = box.ymax → (getRect box (W : ℚ) (H : ℚ)).h = 0) := by
  have hWQ : (0 : ℚ) < (W : ℚ) := by exact_mod_cast hW
  have hHQ : (0 : ℚ) < (H : ℚ) := by exact_mod_cast hH
  refine ⟨?_, ?_, ?_, ?_⟩
  · intro hlt
    have hpos : 0 < (normComp box.xmax - normComp box.xmin) * (W : ℚ) :=
      mul_pos (by linarith) hWQ
    exact Int.ceil_pos.mpr hpos
  · intro hlt
    have hpos : 0 < (normComp box.ymax - normComp box.ymin) * (H : ℚ) :=
      mul_pos (by linarith) hHQ
    exact Int.ceil_pos.mpr hpos
  · intro heq
    show ⌈(normComp box.xmax - normComp box.xmin) * (W : ℚ)⌉ = 0
    rw [heq, sub_self, zero_mul, Int.ceil_zero]
  · intro heq
    show ⌈(normComp box.ymax - normComp box.ymin) * (H : ℚ)⌉ = 0
    rw [heq, sub_self, zero_mul, Int.ceil_zero]

/-- Witness for the amended C3 at the box `[0.1, 0.1, 0.5, 0.5]` (positive
range, extents ≥ 1) and, through the same theorem, the degenerate behaviour
at equal components. -/
theorem getRect_extent_witness :
    (0 : ℤ) < 100 ∧
    normComp (1/10 : ℚ) < normComp (1/2 : ℚ) ∧
    1 ≤ (getRect ⟨1/10, 1/10, 1/2, 1/2⟩ (100 : ℚ) (100 : ℚ)).w := by
  refine ⟨by norm_num, by norm_num [normComp], ?_⟩
  exact (getRect_extent ⟨1/10, 1/10, 1/2, 1/2⟩ 100 100 (by norm_num) (by norm_num)).1
    (by norm_num [normComp])

/-- Counterexample for C4: the component `-2` has magnitude greater than 1,
yet the Normalizer leaves it untouched (it tests the signed value `c > 1`,
not the magnitude), so it is not divided by 1000. -/
theorem normComp_magnitude_counterexample :
    |(-2 : ℚ)| > 1 ∧ normComp (-2) = -2 ∧ normComp (-2) ≠ (-2) / 1000 := by
  norm_num [normComp]

/-- Modelled after the spec's algorithm description (§4.1), amended so the
per-mille test is on the signed value, as the code performs it: a component
is divided by 1000 exactly when its value exceeds 1 (otherwise it is treated
as already fractional), row components are multiplied by the target height,
column components by the target width, the minima are floored and the
extents are ceiled. -/
def specRect (box : Box) (W H : ℚ) : Rect :=
  let divideIfLarge : ℚ → ℚ := fun c => if 1 < c then c / 1000 else c
  let rowMin := divideIfLarge box.ymin * H
  let colMin := divideIfLarge box.xmin * W
  let rowMax := divideIfLarge box.ymax * H
  let colMax := divideIfLarge box.xmax * W
  { x := ⌊colMin⌋, y := ⌊rowMin⌋, w := ⌈colMax - colMin⌉, h := ⌈rowMax - rowMin⌉ }

/-- Claim C4 (amended): the Coordinate Normalizer implements the
component-wise rule with a signed test — each component is divided by 1000
exactly when its value (not its magnitude) exceeds 1, rows are scaled by the
target height and columns by the target width. -/
theorem getRect_eq_specRect : ∀ (box : Box) (W H : ℚ), getRect box W H = specRect box W H := by
  intro box W H
  unfold getRect specRect normComp
  simp only [gt_iff_lt]
  refine congrArg₂ (fun (w h : ℤ) => Rect.mk _ _ w h) ?_ ?_
  · exact congrArg Int.ceil (by ring)
  · exact congrArg Int.ceil (by ring)

/-- Decimal digit list of a natural number, least-significant last, as
JavaScript template-string interpolation renders numbers. -/
def natDigits (n : ℕ) : List Char :=
  if h : n < 10 then [Nat.digitChar n]
  else natDigits (n / 10) ++ [Nat.digitChar (n % 10)]
termination_by n
decreasing_by
  exact Nat.div_lt_self (by omega) (by omega)

/-- Decimal string of a natural number (JavaScript number-to-string for the
non-negative integers this code interpolates). -/
def natStr (n : ℕ) : String := ⟨natDigits n⟩

/-- One canvas drawing operation performed by `cropAndAnnotateImage`
(src/utils/imageProcessing.ts).  The trace of these operations is the
observable content of the annotated raster. -/
inductive DrawOp where
  | drawImage (w h : ℚ)
  | line (x1 y1 x2 y2 : ℚ) (strokeStyle : String) (lineWidth : ℚ)
  | dot (x y r : ℚ) (fillStyle : String)
  | badgeCircle (x y r : ℚ) (fillStyle strokeStyle : String)
  | badgeText (s : String) (x y fontSize : ℚ)
deriving DecidableEq, Repr

/-- The target canvas dimensions `cropAndAnnotateImage` establishes: the
decoded image is scaled down uniformly when either dimension exceeds
`MAX_DIMENSION = 1200`. -/
def annotateDims (imgW imgH : ℚ) : ℚ × ℚ :=
  if imgW > 1200 ∨ imgH > 1200 then
    let ratio := min (1200 / imgW) (1200 / imgH)
    (imgW * ratio, imgH * ratio)
  else (imgW, imgH)

/-- Drawing trace of `cropAndAnnotateImage` on a decoded image of the given
dimensions: draw the (possibly resized) base image; if a label bounding box
is present, optionally draw the red pointer line and terminal dot to the
structure box center, then the badge circle and the card-index text at the
label box center. -/
def cropAndAnnotateImage (imgW imgH : ℚ) (boundingBox : Option Box)
    (cardIndex : ℕ) (structureBoundingBox : Option Box) : List DrawOp :=
  let dims := annotateDims imgW imgH
  let targetW := dims.1
  let targetH := dims.2
  let base := [DrawOp.drawImage targetW targetH]
  match boundingBox with
  | none => base
  | some bb =>
    let labelRect := getRect bb targetW targetH
    let labelCenterX : ℚ := (labelRect.x : ℚ) + (labelRect.w : ℚ) / 2
    let labelCenterY : ℚ := (labelRect.y : ℚ) + (labelRect.h : ℚ) / 2
    let ptrOps := match structureBoundingBox with
      | none => []
      | some sb =>
        let structRect := getRect sb targetW targetH
        let structCenterX : ℚ := (structRect.x : ℚ) + (structRect.w : ℚ) / 2
        let structCenterY : ℚ := (structRect.y : ℚ) + (structRect.h : ℚ) / 2
        [DrawOp.line labelCenterX labelCenterY structCenterX structCenterY "#ef4444" 2,
         DrawOp.dot structCenterX structCenterY 4 "#ef4444"]
    let badgeRadius : ℚ := max 20 (min (labelRect.w : ℚ) (labelRect.h : ℚ) * (7/10))
    base ++ ptrOps ++
      [DrawOp.badgeCircle labelCenterX labelCenterY badgeRadius "#ef4444" "#ffffff",
       DrawOp.badgeText (natStr cardIndex) labelCenterX
         (labelCenterY + badgeRadius * (1/10)) (badgeRadius * (11/10))]

/-- Claim C9: for the card with label box `[100,100,200,200]` and structure
box `[400,400,450,450]` annotated at index 1 on a 1000×1000 source raster,
the renderer draws the base image, a red line from (150,150) to (425,425),
a filled dot at (425,425), and a badge showing "1" centered at (150,150)
with radius `max(20, 0.7 * min(100, 100)) = 70`. -/
theorem cropAndAnnotateImage_example :
    cropAndAnnotateImage 1000 1000 (some ⟨100, 100, 200, 200⟩) 1
        (some ⟨400, 400, 450, 450⟩) =
      [DrawOp.drawImage 1000 1000,
       DrawOp.line 150 150 425 425 "#ef4444" 2,
       DrawOp.dot 425 425 4 "#ef4444",
       DrawOp.badgeCircle 150 150 70 "#ef4444" "#ffffff",
       DrawOp.badgeText "1" 150 157 77] := by
  have h1 : natStr 1 = "1" := by
    unfold natStr natDigits
    norm_num [Nat.digitChar]
  have hdims : annotateDims 1000 1000 = (1000, 1000) := by
    unfold annotateDims
    norm_num
  have hl : getRect ⟨100, 100, 200, 200⟩ 1000 1000 = ⟨100, 100, 100, 100⟩ := by
    unfold getRect normComp
    norm_num
  have hs : getRect ⟨400, 400, 450, 450⟩ 1000 1000 = ⟨400, 400, 50, 50⟩ := by
    unfold getRect normComp
    norm_num
  unfold cropAndAnnotateImage
  rw [hdims]
  simp only [hl, hs, h1]
  norm_num

/-- The processing status enum from src/types.ts. -/
inductive ProcessingStatus where
  | IDLE
  | READING_FILE
  | ANALYZING
  | REVIEW_CONFIG
  | GENERATING
  | PROCESSING_IMAGES
  | COMPLETE
  | ERROR
deriving DecidableEq, Repr

/-- The `Flashcard` interface from src/types.ts; bounding boxes are the
4-tuples the renderer destructures, the image is the encoded raster
attached after annotation. -/
structure Flashcard where
  id : String
  front : String
  back : String
  tags : List String
  boundingBox : Option Box := none
  structureBoundingBox : Option Box := none
  image : Option String := none
deriving DecidableEq, Repr

/-- The `{data, mimeType}` pair returned by `generateAiCleanPlate` and fed
to the Annotation Renderer. -/
structure CleanPlate where
  data : String
  mimeType : String
deriving DecidableEq, Repr

/-- The fallback in `handleGenerate` (src/App.tsx): start from the original
file data and replace it by the clean-plate collaborator's result only when
that call succeeds. -/
def cleanPlateOrFallback (fileData : CleanPlate) : Except String CleanPlate → CleanPlate
  | Except.ok cp => cp
  | Except.error _ => fileData

/-- The image branch of `handleGenerate` (src/App.tsx, lines 118–154),
entered when the source file is an image: obtain the clean plate with
fallback, then map over the generated cards; for card `index` the code
awaits `cropAndAnnotateImage(cleanPlateData.data, card.boundingBox,
cleanPlateData.mimeType, index + 1, card.structureBoundingBox)` — on
success the card's front becomes the numbered placeholder and the rendered
image is attached, on a caught per-card failure the original card is
returned; finally the status is set to COMPLETE.  The environment is
abstracted by `dims` (dimensions of the decoded raster for a given base64
payload), `enc` (the `canvas.toDataURL` re-encoding of a drawing trace) and
`annOk` (whether card `i`'s annotation promise resolves rather than
rejects). -/
def handleGenerateImage (dims : String → ℚ × ℚ) (enc : List DrawOp → String)
    (annOk : ℕ → Bool) (fileData : CleanPlate)
    (cleanPlateResult : Except String CleanPlate)
    (generatedCards : List Flashcard) : ProcessingStatus × List Flashcard :=
  let cleanPlateData := cleanPlateOrFallback fileData cleanPlateResult
  let processedCards := generatedCards.enum.map fun p =>
    if annOk p.1 then
      { p.2 with
        front := "Identify structure #" ++ natStr (p.1 + 1) ++ ".",
        image := some (enc (cropAndAnnotateImage (dims cleanPlateData.data).1
          (dims cleanPlateData.data).2 p.2.boundingBox (p.1 + 1)
          p.2.structureBoundingBox)) }
    else p.2
  (ProcessingStatus.COMPLETE, processedCards)

/-- The badge drawn for a card with a label box always shows the decimal
card index passed to the renderer. -/
lemma badgeText_mem_cropAndAnnotateImage (w h : ℚ) (bb : Box) (idx : ℕ)
    (sbox : Option Box) :
    ∃ x y f, DrawOp.badgeText (natStr idx) x y f ∈
      cropAndAnnotateImage w h (some bb) idx sbox := by
  unfold cropAndAnnotateImage
  cases sbox <;> simp

/-- With no label box the renderer's trace is the bare resized base image:
no line, dot, badge or text is drawn. -/
lemma cropAndAnnotateImage_no_box (w h : ℚ) (idx : ℕ) (sbox : Option Box) :
    cropAndAnnotateImage w h none idx sbox =
      [DrawOp.drawImage (annotateDims w h).1 (annotateDims w h).2] := rfl

/-- Counterexample for C1: a generated card with `boundingBox = none`,
processed by the image pipeline with every collaborator succeeding, still
acquires a rendered image (the un-annotated resized raster) — the
orchestrator invokes the renderer for every card, not only for cards that
carry a label box. -/
theorem pipeline_no_box_counterexample :
    ((handleGenerateImage (fun _ => (100, 100)) (fun _ => "rendered")
        (fun _ => true) ⟨"orig", "image/png"⟩
        (Except.ok ⟨"clean", "image/png"⟩)
        [{ id := "c1", front := "f", back := "b", tags := [],
           boundingBox := none, structureBoundingBox := none,
           image := none }]).2.map Flashcard.image) = [some "rendered"] := rfl

/-- Claim C1 (amended): the image-pipeline orchestrator invokes the
Annotation Renderer once per card — whether or not the card carries a label
box — in card generation order, passing it the 1-based card index; on a
successful annotation the card at position `i` acquires exactly the image
encoded from the renderer's trace for its own boxes at index `i + 1`, the
badge drawn when a label box is present shows that 1-based index, and a
card with no `boundingBox` acquires the un-annotated pass-through raster
(base image only, no badge) rather than no image at all. -/
theorem pipeline_image_attachment (dims : String → ℚ × ℚ)
    (enc : List DrawOp → String) (annOk : ℕ → Bool) (fileData : CleanPlate)
    (cleanRes : Except String CleanPlate) (cards : List Flashcard)
    (i : ℕ) (card : Flashcard) (hcard : cards[i]? = some card)
    (hok : annOk i = true) :
    (handleGenerateImage dims enc annOk fileData cleanRes cards).2[i]? =
      some { card with
        front := "Identify structure #" ++ natStr (i + 1) ++ ".",
        image := some (enc (cropAndAnnotateImage
          (dims (cleanPlateOrFallback fileData cleanRes).data).1
          (dims (cleanPlateOrFallback fileData cleanRes).data).2
          card.boundingBox (i + 1) card.structureBoundingBox)) } ∧
    (∀ bb, card.boundingBox = some bb → ∃ x y f,
      DrawOp.badgeText (natStr (i + 1)) x y f ∈
        cropAndAnnotateImage
          (dims (cleanPlateOrFallback fileData cleanRes).data).1
          (dims (cleanPlateOrFallback fileData cleanRes).data).2
          card.boundingBox (i + 1) card.structureBoundingBox) ∧
    (card.boundingBox = none →
      cropAndAnnotateImage
          (dims (cleanPlateOrFallback fileData cleanRes).data).1
          (dims (cleanPlateOrFallback fileData cleanRes).data).2
          card.boundingBox (i + 1) card.structureBoundingBox =
        [DrawOp.drawImage
          (annotateDims (dims (cleanPlateOrFallback fileData cleanRes).data).1
            (dims (cleanPlateOrFallback fileData cleanRes).data).2).1
          (annotateDims (dims (cleanPlateOrFallback fileData cleanRes).data).1
            (dims (cleanPlateOrFallback fileData cleanRes).data).2).2]) := by
  refine ⟨?_, ?_, ?_⟩
  · show (cards.enum.map _)[i]? = _
    rw [List.getElem?_map, List.getElem?_enum, hcard]
    simp [hok]
  · intro bb hbb
    rw [hbb]
    exact badgeText_mem_cropAndAnnotateImage _ _ bb (i + 1) card.structureBoundingBox
  · intro hnone
    rw [hnone]
    exact cropAndAnnotateImage_no_box _ _ _ _

/-- Witness for the amended C1 at a concrete one-card list whose card
carries the label box `[100,100,200,200]`. -/
theorem pipeline_image_attachment_witness :
    ([({ id := "c1", front := "f", back := "b", tags := [],
         boundingBox := some ⟨100, 100, 200, 200⟩,
         structureBoundingBox := none, image := none } : Flashcard)][0]? =
      some { id := "c1", front := "f", back := "b", tags := [],
             boundingBox := some ⟨100, 100, 200, 200⟩,
             structureBoundingBox := none, image := none }) ∧
    ((fun _ => true) 0 = true) ∧
    ((handleGenerateImage (fun _ => (1000, 1000)) (fun _ => "rendered")
        (fun _ => true) ⟨"orig", "image/png"⟩
        (Except.ok ⟨"clean", "image/png"⟩)
        [{ id := "c1", front := "f", back := "b", tags := [],
           boundingBox := some ⟨100, 100, 200, 200⟩,
           structureBoundingBox := none, image := none }]).2[0]? =
      some { id := "c1", front := "Identify structure #" ++ natStr 1 ++ ".",
             back := "b", tags := [],
             boundingBox := some ⟨100, 100, 200, 200⟩,
             structureBoundingBox := none,
             image := some "rendered" }) :=
  ⟨rfl, rfl,
   (pipeline_image_attachment (fun _ => (1000, 1000)) (fun _ => "rendered")
     (fun _ => true) ⟨"orig", "image/png"⟩ (Except.ok ⟨"clean", "image/png"⟩)
     [{ id := "c1", front := "f", back := "b", tags := [],
        boundingBox := some ⟨100, 100, 200, 200⟩,
        structureBoundingBox := none, image := none }] 0 _ rfl rfl).1⟩

/-- Claim C8: in the image-pipeline orchestrator a clean-plate failure is
non-fatal — the job behaves exactly as if the collaborator had returned the
original raster, so annotation proceeds against it — and a per-card
annotation failure is caught, keeping that card unchanged (its generated
front text, no attached image) instead of aborting; in all such degraded
runs the job still completes with status COMPLETE rather than ERROR. -/
theorem pipeline_degraded_nonfatal (dims : String → ℚ × ℚ)
    (enc : List DrawOp → String) (annOk : ℕ → Bool) (fileData : CleanPlate)
    (cleanRes : Except String CleanPlate) (cards : List Flashcard)
    (e : String) (i : ℕ) (card : Flashcard) (hcard : cards[i]? = some card)
    (hfail : annOk i = false) :
    (handleGenerateImage dims enc annOk fileData cleanRes cards).1 =
      ProcessingStatus.COMPLETE ∧
    handleGenerateImage dims enc annOk fileData (Except.error e) cards =
      handleGenerateImage dims enc annOk fileData (Except.ok fileData) cards ∧
    (handleGenerateImage dims enc annOk fileData cleanRes cards).2[i]? =
      some card := by
  refine ⟨rfl, rfl, ?_⟩
  show (cards.enum.map _)[i]? = _
  rw [List.getElem?_map, List.getElem?_enum, hcard]
  simp [hfail]

/-- Witness for C8: a one-card run in which the clean-plate call fails and
the card's annotation also fails still reaches COMPLETE with the card
unchanged. -/
theorem pipeline_degraded_nonfatal_witness :
    ([({ id := "c1", front := "f", back := "b", tags := [],
         boundingBox := some ⟨100, 100, 200, 200⟩,
         structureBoundingBox := none, image := none } : Flashcard)][0]? =
      some { id := "c1", front := "f", back := "b", tags := [],
             boundingBox := some ⟨100, 100, 200, 200⟩,
             structureBoundingBox := none, image := none }) ∧
    ((fun _ => false) 0 = false) ∧
    ((handleGenerateImage (fun _ => (1000, 1000)) (fun _ => "rendered")
        (fun _ => false) ⟨"orig", "image/png"⟩ (Except.error "boom")
        [{ id := "c1", front := "f", back := "b", tags := [],
           boundingBox := some ⟨100, 100, 200, 200⟩,
           structureBoundingBox := none, image := none }]).1 =
      ProcessingStatus.COMPLETE ∧
     handleGenerateImage (fun _ => (1000, 1000)) (fun _ => "rendered")
        (fun _ => false) ⟨"orig", "image/png"⟩ (Except.error "boom")
        [{ id := "c1", front := "f", back := "b", tags := [],
           boundingBox := some ⟨100, 100, 200, 200⟩,
           structureBoundingBox := none, image := none }] =
       handleGenerateImage (fun _ => (1000, 1000)) (fun _ => "rendered")
        (fun _ => false) ⟨"orig", "image/png"⟩
        (Except.ok ⟨"orig", "image/png"⟩)
        [{ id := "c1", front := "f", back := "b", tags := [],
           boundingBox := some ⟨100, 100, 200, 200⟩,
           structureBoundingBox := none, image := none }] ∧
     (handleGenerateImage (fun _ => (1000, 1000)) (fun _ => "rendered")
        (fun _ => false) ⟨"orig", "image/png"⟩ (Except.error "boom")
        [{ id := "c1", front := "f", back := "b", tags := [],
           boundingBox := some ⟨100, 100, 200, 200⟩,
           structureBoundingBox := none, image := none }]).2[0]? =
      some { id := "c1", front := "f", back := "b", tags := [],
             boundingBox := some ⟨100, 100, 200, 200⟩,
             structureBoundingBox := none, image := none }) :=
  ⟨rfl, rfl,
   pipeline_degraded_nonfatal (fun _ => (1000, 1000)) (fun _ => "rendered")
     (fun _ => false) ⟨"orig", "image/png"⟩ (Except.error "boom")
     [{ id := "c1", front := "f", back := "b", tags := [],
        boundingBox := some ⟨100, 100, 200, 200⟩,
        structureBoundingBox := none, image := none }] "boom" 0 _ rfl rfl⟩

/-- Replace every occurrence of the character `c` by the string `rep`
(JavaScript `String.replace` with a global single-character pattern). -/
def replaceChar (c : Char) (rep : List Char) : List Char → List Char
  | [] => []
  | a :: rest =>
    if a = c then rep ++ replaceChar c rep rest
    else a :: replaceChar c rep rest

/-- `formatFieldForAnki` (src/utils/anki.ts): every newline becomes the
line-break markup `<br>`, then every tab becomes four spaces.  (The JS
guard `if (!field) return ""` maps the empty string to itself, which this
definition also does.) -/
def formatFieldForAnki (field : String) : String :=
  ⟨replaceChar '\t' "    ".data (replaceChar '\n' "<br>".data field.data)⟩

lemma mem_replaceChar {x c : Char} {rep : List Char} :
    ∀ {l : List Char}, x ∈ replaceChar c rep l → x ∈ rep ∨ (x ∈ l ∧ x ≠ c)
  | [], hx => by simp [replaceChar] at hx
  | a :: rest, hx => by
    simp only [replaceChar] at hx
    by_cases ha : a = c
    · rw [if_pos ha] at hx
      rcases List.mem_append.mp hx with h | h
      · exact Or.inl h
      · rcases mem_replaceChar h with h2 | h2
        · exact Or.inl h2
        · exact Or.inr ⟨List.mem_cons_of_mem _ h2.1, h2.2⟩
    · rw [if_neg ha] at hx
      rcases List.mem_cons.mp hx with h | h
      · subst h
        exact Or.inr ⟨List.mem_cons_self _ _, ha⟩
      · rcases mem_replaceChar h with h2 | h2
        · exact Or.inl h2
        · exact Or.inr ⟨List.mem_cons_of_mem _ h2.1, h2.2⟩

/-- The sanitized field contains neither a tab nor a newline. -/
lemma formatFieldForAnki_clean (s : String) :
    '\t' ∉ (formatFieldForAnki s).data ∧ '\n' ∉ (formatFieldForAnki s).data := by
  constructor
  · intro hmem
    rcases mem_replaceChar hmem with h | h
    · revert h; decide
    · exact h.2 rfl
  · intro hmem
    rcases mem_replaceChar hmem with h | h
    · revert h; decide
    · rcases mem_replaceChar h.1 with h2 | h2
      · revert h2; decide
      · exact h2.2 rfl

lemma strData_append (a b : String) : (a ++ b).data = a.data ++ b.data := rfl

/-- One row of the mobile TSV export (`downloadMobileText`,
src/utils/anki.ts): sanitized front, tab, sanitized back, tab, and the raw
space-join of the tags. -/
def mobileRow (card : Flashcard) : String :=
  formatFieldForAnki card.front ++ "\t" ++ formatFieldForAnki card.back ++ "\t"
    ++ String.intercalate " " card.tags

/-- The mobile TSV file content: one row per card, joined by newlines. -/
def downloadMobileTextContent (cards : List Flashcard) : String :=
  String.intercalate "\n" (cards.map mobileRow)

/-- Counterexample for C6: a card whose single tag contains a literal tab
produces a mobile TSV row with three tab characters — four tab-separated
columns, not three — because the tag column is the raw space-join of the
tags, not a sanitized field. -/
theorem mobileRow_tab_counterexample :
    ((mobileRow { id := "c", front := "f", back := "b",
                  tags := ["a\tb"] }).data.count '\t' = 3) ∧
    ¬ ((mobileRow { id := "c", front := "f", back := "b",
                    tags := ["a\tb"] }).data.count '\t' = 2) := by
  constructor
  · rfl
  · intro h
    rw [show (mobileRow { id := "c", front := "f", back := "b",
                          tags := ["a\tb"] }).data.count '\t' = 3 from rfl] at h
    exact absurd h (by norm_num)

/-- Claim C6 (amended): the sanitized front and back fields of a mobile TSV
row contain no literal tab and no literal newline (newlines having been
converted to the `<br>` markup token and tabs to four spaces), so every row
whose card's tags contain no tab has exactly three tab-separated columns;
a tab inside a tag, however, does survive into the row. -/
theorem mobileRow_columns (card : Flashcard)
    (htags : '\t' ∉ (String.intercalate " " card.tags).data) :
    (mobileRow card).data.count '\t' = 2 ∧
    '\t' ∉ (formatFieldForAnki card.front).data ∧
    '\n' ∉ (formatFieldForAnki card.front).data ∧
    '\t' ∉ (formatFieldForAnki card.back).data ∧
    '\n' ∉ (formatFieldForAnki card.back).data := by
  obtain ⟨hf1, hf2⟩ := formatFieldForAnki_clean card.front
  obtain ⟨hb1, hb2⟩ := formatFieldForAnki_clean card.back
  refine ⟨?_, hf1, hf2, hb1, hb2⟩
  unfold mobileRow
  rw [strData_append, strData_append, strData_append, strData_append]
  rw [List.count_append, List.count_append, List.count_append, List.count_append]
  rw [List.count_eq_zero_of_not_mem hf1, List.count_eq_zero_of_not_mem hb1,
      List.count_eq_zero_of_not_mem htags]
  rfl

/-- Witness for the amended C6 at a card with two ordinary tags. -/
theorem mobileRow_columns_witness :
    ('\t' ∉ (String.intercalate " " ["anatomy", "brain"]).data) ∧
    ((mobileRow { id := "c", front := "fr\nont", back := "ba\tck",
                  tags := ["anatomy", "brain"] }).data.count '\t' = 2 ∧
     '\t' ∉ (formatFieldForAnki ("fr\nont" : String)).data ∧
     '\n' ∉ (formatFieldForAnki ("fr\nont" : String)).data ∧
     '\t' ∉ (formatFieldForAnki ("ba\tck" : String)).data ∧
     '\n' ∉ (formatFieldForAnki ("ba\tck" : String)).data) :=
  ⟨by decide,
   mobileRow_columns { id := "c", front := "fr\nont", back := "ba\tck",
                       tags := ["anatomy", "brain"] } (by decide)⟩

/-- `escapeCsvField` (`downloadAnkiCsv`, src/utils/anki.ts): double every
internal double quote, then wrap the field in double quotes. -/
def escapeCsvField (field : String) : String :=
  "\"" ++ (⟨replaceChar '"' ['"', '"'] field.data⟩ : String) ++ "\""

/-- Modelled from the spec: a standard CSV reader's decoding of one quoted
field body (the opening quote already consumed) — a doubled quote stands
for a literal quote, a single quote closes the field.  Returns the decoded
field and the input remaining after the closing quote. -/
def parseQuotedBody : List Char → Option (List Char × List Char)
  | [] => none
  | [c] => if c = '"' then some ([], []) else none
  | c :: c2 :: rest =>
    if c = '"' then
      if c2 = '"' then (parseQuotedBody rest).map fun p => ('"' :: p.1, p.2)
      else some ([], c2 :: rest)
    else (parseQuotedBody (c2 :: rest)).map fun p => (c :: p.1, p.2)

lemma parseQuotedBody_quote_quote (Y : List Char) :
    parseQuotedBody ('"' :: '"' :: Y) =
      (parseQuotedBody Y).map fun p => ('"' :: p.1, p.2) := by
  simp [parseQuotedBody]

lemma parseQuotedBody_cons_ne (a : Char) (ha : ¬ a = '"') (Y : List Char) :
    parseQuotedBody (a :: Y) =
      (parseQuotedBody Y).map fun p => (a :: p.1, p.2) := by
  cases Y with
  | nil => simp [parseQuotedBody, ha]
  | cons y ys => simp [parseQuotedBody, ha]

/-- Modelled from the spec: a standard CSV reader applied to one complete
encoded field — it must start with a quote, and the closing quote must end
the input. -/
def parseCsvField (s : String) : Option String :=
  match s.data with
  | '"' :: rest =>
    match parseQuotedBody rest with
    | some (f, []) => some ⟨f⟩
    | _ => none
  | _ => none

lemma parseQuotedBody_escape (l : List Char) :
    parseQuotedBody (replaceChar '"' ['"', '"'] l ++ ['"']) = some (l, []) := by
  induction l with
  | nil => rfl
  | cons a rest ih =>
    by_cases ha : a = '"'
    · subst ha
      rw [show replaceChar '"' ['"', '"'] ('"' :: rest) =
          '"' :: '"' :: replaceChar '"' ['"', '"'] rest from by
        simp [replaceChar]]
      rw [List.cons_append, List.cons_append, parseQuotedBody_quote_quote, ih]
      rfl
    · rw [show replaceChar '"' ['"', '"'] (a :: rest) =
          a :: replaceChar '"' ['"', '"'] rest from by
        simp [replaceChar, ha]]
      rw [List.cons_append, parseQuotedBody_cons_ne a ha, ih]
      rfl

/-- Claim C5: CSV field encoding round-trips — for every field string,
encoding it with the CSV exporter's quoting rule (wrap in double quotes,
double every internal double quote) and then parsing the result with a
standard CSV reader recovers the original string exactly; in particular
this holds for a field containing `He said "go"` and a newline. -/
theorem csv_field_roundtrip : ∀ s : String,
    parseCsvField (escapeCsvField s) = some s := by
  intro s
  obtain ⟨l⟩ := s
  show parseCsvField ⟨'"' :: (replaceChar '"' ['"', '"'] l ++ ['"'])⟩ = _
  unfold parseCsvField
  simp only
  rw [parseQuotedBody_escape]

/-- One CSV record of `downloadAnkiCsv`: quoted front, quoted back and the
quoted space-join of the tags, comma-separated. -/
def csvRow (card : Flashcard) : String :=
  escapeCsvField card.front ++ "," ++ escapeCsvField card.back ++ ","
    ++ escapeCsvField (String.intercalate " " card.tags)

/-- The CSV file content of `downloadAnkiCsv`: records joined by newlines,
prefixed by the byte-order mark. -/
def downloadAnkiCsvContent (cards : List Flashcard) : String :=
  "﻿" ++ String.intercalate "\n" (cards.map csvRow)

/-- One Markdown block of `downloadMarkdown` (src/utils/anki.ts). -/
def markdownRow (card : Flashcard) : String :=
  "### " ++ card.front ++ "\n\n**Answer:** " ++ card.back ++ "\n\n*Tags: #"
    ++ String.intercalate " #" card.tags ++ "*\n\n---\n"

/-- The Markdown file content of `downloadMarkdown`: blocks joined by
newlines. -/
def downloadMarkdownContent (cards : List Flashcard) : String :=
  String.intercalate "\n" (cards.map markdownRow)

lemma map_eq_of_proj {α : Type} (cards1 cards2 : List Flashcard)
    (h : cards1.map (fun c => (c.front, c.back, c.tags)) =
         cards2.map (fun c => (c.front, c.back, c.tags)))
    (g : String × String × List String → α) :
    cards1.map (fun c => g (c.front, c.back, c.tags)) =
      cards2.map (fun c => g (c.front, c.back, c.tags)) := by
  have h1 : cards1.map (fun c => g (c.front, c.back, c.tags)) =
      (cards1.map (fun c => (c.front, c.back, c.tags))).map g := by
    rw [List.map_map]
    rfl
  have h2 : cards2.map (fun c => g (c.front, c.back, c.tags)) =
      (cards2.map (fun c => (c.front, c.back, c.tags))).map g := by
    rw [List.map_map]
    rfl
  rw [h1, h2, h]

/-- Claim C10: the CSV, mobile-TSV and Markdown exports are functions of
each card's front, back and tags only — two card lists that agree on those
three fields card-by-card produce identical file contents, whatever their
images and bounding boxes. -/
theorem text_exports_ignore_images (cards1 cards2 : List Flashcard)
    (h : cards1.map (fun c => (c.front, c.back, c.tags)) =
         cards2.map (fun c => (c.front, c.back, c.tags))) :
    downloadAnkiCsvContent cards1 = downloadAnkiCsvContent cards2 ∧
    downloadMobileTextContent cards1 = downloadMobileTextContent cards2 ∧
    downloadMarkdownContent cards1 = downloadMarkdownContent cards2 := by
  refine ⟨?_, ?_, ?_⟩
  · have hmap : cards1.map csvRow = cards2.map csvRow :=
      map_eq_of_proj cards1 cards2 h
        (fun p => escapeCsvField p.1 ++ "," ++ escapeCsvField p.2.1 ++ ","
          ++ escapeCsvField (String.intercalate " " p.2.2))
    unfold downloadAnkiCsvContent
    rw [hmap]
  · have hmap : cards1.map mobileRow = cards2.map mobileRow :=
      map_eq_of_proj cards1 cards2 h
        (fun p => formatFieldForAnki p.1 ++ "\t" ++ formatFieldForAnki p.2.1
          ++ "\t" ++ String.intercalate " " p.2.2)
    unfold downloadMobileTextContent
    rw [hmap]
  · have hmap : cards1.map markdownRow = cards2.map markdownRow :=
      map_eq_of_proj cards1 cards2 h
        (fun p => "### " ++ p.1 ++ "\n\n**Answer:** " ++ p.2.1 ++ "\n\n*Tags: #"
          ++ String.intercalate " #" p.2.2 ++ "*\n\n---\n")
    unfold downloadMarkdownContent
    rw [hmap]

/-- Witness for C10: two one-card lists that agree on front, back and tags
but differ in bounding boxes and rendered image produce identical CSV,
mobile TSV and Markdown contents. -/
theorem text_exports_ignore_images_witness :
    ([({ id := "a", front := "f", back := "b", tags := ["t"],
         boundingBox := some ⟨100, 100, 200, 200⟩,
         structureBoundingBox := some ⟨400, 400, 450, 450⟩,
         image := some "dataurl" } : Flashcard)].map
        (fun c => (c.front, c.back, c.tags)) =
      [({ id := "a", front := "f", back := "b", tags := ["t"],
          boundingBox := none, structureBoundingBox := none,
          image := none } : Flashcard)].map
        (fun c => (c.front, c.back, c.tags))) ∧
    (downloadAnkiCsvContent
        [{ id := "a", front := "f", back := "b", tags := ["t"],
           boundingBox := some ⟨100, 100, 200, 200⟩,
           structureBoundingBox := some ⟨400, 400, 450, 450⟩,
           image := some "dataurl" }] =
      downloadAnkiCsvContent
        [{ id := "a", front := "f", back := "b", tags := ["t"],
           boundingBox := none, structureBoundingBox := none,
           image := none }] ∧
     downloadMobileTextContent
        [{ id := "a", front := "f", back := "b", tags := ["t"],
           boundingBox := some ⟨100, 100, 200, 200⟩,
           structureBoundingBox := some ⟨400, 400, 450, 450⟩,
           image := some "dataurl" }] =
      downloadMobileTextContent
        [{ id := "a", front := "f", back := "b", tags := ["t"],
           boundingBox := none, structureBoundingBox := none,
           image := none }] ∧
     downloadMarkdownContent
        [{ id := "a", front := "f", back := "b", tags := ["t"],
           boundingBox := some ⟨100, 100, 200, 200⟩,
           structureBoundingBox := some ⟨400, 400, 450, 450⟩,
           image := some "dataurl" }] =
      downloadMarkdownContent
        [{ id := "a", front := "f", back := "b", tags := ["t"],
           boundingBox := none, structureBoundingBox := none,
           image := none }]) :=
  ⟨rfl,
   text_exports_ignore_images
     [{ id := "a", front := "f", back := "b", tags := ["t"],
        boundingBox := some ⟨100, 100, 200, 200⟩,
        structureBoundingBox := some ⟨400, 400, 450, 450⟩,
        image := some "dataurl" }]
     [{ id := "a", front := "f", back := "b", tags := ["t"],
        boundingBox := none, structureBoundingBox := none,
        image := none }] rfl⟩

lemma digitChar_ne_underscore : ∀ d, d < 10 → Nat.digitChar d ≠ '_' := by decide

lemma digitChar_toNat : ∀ d, d < 10 → (Nat.digitChar d).toNat = 48 + d := by decide

lemma natDigits_ne_underscore (n : ℕ) : ∀ c ∈ natDigits n, c ≠ '_' := by
  induction n using Nat.strong_induction_on with
  | _ n ih =>
    rw [natDigits]
    split
    · rename_i h
      intro c hc
      rw [List.mem_singleton] at hc
      subst hc
      exact digitChar_ne_underscore n h
    · rename_i h
      intro c hc
      rcases List.mem_append.mp hc with h2 | h2
      · exact ih (n / 10) (Nat.div_lt_self (by omega) (by omega)) c h2
      · rw [List.mem_singleton] at h2
        subst h2
        exact digitChar_ne_underscore (n % 10) (Nat.mod_lt _ (by omega))

/-- Value of a decimal digit string — the left inverse of `natDigits`. -/
def digitsToNat (l : List Char) : ℕ :=
  l.foldl (fun acc c => acc * 10 + (c.toNat - 48)) 0

lemma natDigits_foldl (n : ℕ) : ∀ a : ℕ,
    (natDigits n).foldl (fun acc c => acc * 10 + (c.toNat - 48)) a
      = a * 10 ^ (natDigits n).length + n := by
  induction n using Nat.strong_induction_on with
  | _ n ih =>
    intro a
    rw [natDigits]
    split
    · rename_i h
      show a * 10 + ((Nat.digitChar n).toNat - 48) = a * 10 ^ ([Nat.digitChar n].length) + n
      rw [digitChar_toNat n h]
      simp
    · rename_i h
      rw [List.foldl_append]
      rw [ih (n / 10) (Nat.div_lt_self (by omega) (by omega)) a]
      show (a * 10 ^ (natDigits (n / 10)).length + n / 10) * 10
          + ((Nat.digitChar (n % 10)).toNat - 48) = _
      rw [digitChar_toNat (n % 10) (Nat.mod_lt _ (by omega))]
      rw [List.length_append, List.length_singleton]
      have hdm : n / 10 * 10 + n % 10 = n := by omega
      calc (a * 10 ^ (natDigits (n / 10)).length + n / 10) * 10 + (48 + n % 10 - 48)
          = a * (10 ^ (natDigits (n / 10)).length * 10) + (n / 10 * 10 + n % 10) := by
            rw [show 48 + n % 10 - 48 = n % 10 from by omega]; ring
        _ = a * 10 ^ ((natDigits (n / 10)).length + 1) + n := by rw [hdm, pow_succ]

lemma digitsToNat_natDigits (n : ℕ) : digitsToNat (natDigits n) = n := by
  unfold digitsToNat
  rw [natDigits_foldl]
  simp

/-- The generated media filename in `downloadAnkiPack` (src/utils/anki.ts):
`medflash_${Date.now()}_${index}.png`, where `t` is the `Date.now()` value
observed while processing this card. -/
def mediaFileName (t idx : ℕ) : String :=
  "medflash_" ++ natStr t ++ "_" ++ natStr idx ++ ".png"

/-- Recover the embedded card index from a generated media filename: strip
the four trailing characters of the `.png` suffix, read the digit run back
to the last underscore, and interpret it as a decimal number. -/
def extractIdx (s : String) : ℕ :=
  digitsToNat (((s.data.reverse.drop 4).takeWhile fun c => c != '_').reverse)

lemma mediaFileName_data (t idx : ℕ) :
    (mediaFileName t idx).data =
      ("medflash_".data ++ natDigits t) ++
        ('_' :: (natDigits idx ++ ".png".data)) := by
  unfold mediaFileName natStr
  rw [strData_append, strData_append, strData_append, strData_append]
  simp [List.append_assoc]

lemma takeWhile_append_cons {p : Char → Bool} {l1 : List Char}
    (h1 : ∀ x ∈ l1, p x = true) (a : Char) (ha : p a = false) (l2 : List Char) :
    (l1 ++ a :: l2).takeWhile p = l1 := by
  induction l1 with
  | nil =>
    rw [List.nil_append]
    exact List.takeWhile_cons_of_neg (by rw [ha]; exact Bool.false_ne_true)
  | cons b rest ih =>
    rw [List.cons_append,
        List.takeWhile_cons_of_pos (h1 b (List.mem_cons_self b rest)),
        ih fun x hx => h1 x (List.mem_cons_of_mem b hx)]

lemma extractIdx_mediaFileName (t idx : ℕ) :
    extractIdx (mediaFileName t idx) = idx := by
  unfold extractIdx
  rw [mediaFileName_data]
  have hrev : ((("medflash_".data ++ natDigits t) ++
      ('_' :: (natDigits idx ++ ".png".data))).reverse) =
      ".png".data.reverse ++ ((natDigits idx).reverse ++
        ('_' :: ("medflash_".data ++ natDigits t).reverse)) := by
    simp [List.reverse_append, List.append_assoc]
  rw [hrev]
  rw [show (4 : ℕ) = ".png".data.reverse.length from rfl]
  rw [List.drop_left]
  rw [takeWhile_append_cons ?h1 '_' rfl]
  case h1 =>
    intro x hx
    have hne := natDigits_ne_underscore idx x (List.mem_reverse.mp hx)
    simpa using hne
  rw [List.reverse_reverse, digitsToNat_natDigits]

lemma mediaFileName_ne (t1 t2 i1 i2 : ℕ) (h : i1 ≠ i2) :
    mediaFileName t1 i1 ≠ mediaFileName t2 i2 := fun he =>
  h (by rw [← extractIdx_mediaFileName t1 i1, he, extractIdx_mediaFileName])

lemma mediaFileName_head (t i : ℕ) :
    (mediaFileName t i).data.head? = some 'm' := by
  rw [mediaFileName_data]
  rfl

lemma mediaFileName_ne_import (t i : ℕ) : mediaFileName t i ≠ "import.txt" := by
  intro h
  have h2 : (mediaFileName t i).data.head? = ("import.txt" : String).data.head? :=
    congrArg (fun s => s.data.head?) h
  rw [mediaFileName_head] at h2
  exact absurd h2 (by decide)

lemma mediaFileName_ne_readme (t i : ℕ) : mediaFileName t i ≠ "README.txt" := by
  intro h
  have h2 : (mediaFileName t i).data.head? = ("README.txt" : String).data.head? :=
    congrArg (fun s => s.data.head?) h
  rw [mediaFileName_head] at h2
  exact absurd h2 (by decide)

/-- The optional archive entry produced for one enumerated card inside the
`downloadAnkiPack` map (src/utils/anki.ts): if the card carries a rendered
image, a media file named `medflash_${Date.now()}_${index}.png` holding the
image's base64 payload (`card.image.split(',')[1]`) is added to the archive
root. -/
def mediaEntry (now : ℕ → ℕ) (p : ℕ × Flashcard) : Option (String × String) :=
  match p.2.image with
  | some img => some (mediaFileName (now p.1) p.1, (img.splitOn ",").getD 1 "")
  | none => none

/-- The media files `downloadAnkiPack` adds to the archive root, one per
card that carries a rendered image, in card order. -/
def packMediaEntries (now : ℕ → ℕ) (cards : List Flashcard) :
    List (String × String) :=
  cards.enum.filterMap (mediaEntry now)

/-- The front field of a card's TSV row in `downloadAnkiPack`: the
sanitized front, extended with the embedded image tag referencing the
generated media filename when the card carries a rendered image. -/
def packFront (now : ℕ → ℕ) (idx : ℕ) (card : Flashcard) : String :=
  match card.image with
  | some _ => formatFieldForAnki card.front ++ "<br><br><img src=\""
      ++ mediaFileName (now idx) idx ++ "\">"
  | none => formatFieldForAnki card.front

/-- One TSV row of `downloadAnkiPack`. -/
def packRow (now : ℕ → ℕ) (idx : ℕ) (card : Flashcard) : String :=
  packFront now idx card ++ "\t" ++ formatFieldForAnki card.back ++ "\t"
    ++ String.intercalate " " card.tags

/-- The plain-text instructions file added as `README.txt`. -/
def packInstructions : String :=
  "\nIMPORT INSTRUCTIONS (MEDFLASH AI)\n=================================\n\nMETHOD A: ANKI DESKTOP (Recommended)\n1. Unzip this folder.\n2. Select all .png image files and move them to your \"collection.media\" folder.\n3. Open Anki -> File -> Import -> Select \"import.txt\".\n4. Sync to your mobile device.\n\nMETHOD B: DIRECT IMPORT (Some Mobile Apps)\n1. Some mobile apps support importing this ZIP directly if they handle media archives.\n2. If getting \"Error 500\", please use Method A.\n\nFile Structure:\n- import.txt (Flashcards)\n- *.png (Images)\n  "

/-- The archive produced by `downloadAnkiPack` (src/utils/anki.ts), as a
list of named files: the per-card media files at archive root, then the
TSV `import.txt` and the `README.txt` instructions. -/
def downloadAnkiPack (now : ℕ → ℕ) (cards : List Flashcard) :
    List (String × String) :=
  packMediaEntries now cards ++
    [("import.txt",
      String.intercalate "\n" (cards.enum.map fun p => packRow now p.1 p.2)),
     ("README.txt", packInstructions)]

lemma packMedia_length_aux (now : ℕ → ℕ) (cards : List Flashcard) : ∀ n : ℕ,
    ((cards.enumFrom n).filterMap (mediaEntry now)).length
      = (cards.filter fun c => c.image.isSome).length := by
  induction cards with
  | nil => intro n; rfl
  | cons c rest ih =>
    intro n
    rw [show List.enumFrom n (c :: rest) = (n, c) :: List.enumFrom (n + 1) rest
        from rfl]
    rw [List.filterMap_cons, List.filter_cons]
    cases himg : c.image with
    | none => simp [mediaEntry, himg, ih (n + 1)]
    | some img => simp [mediaEntry, himg, ih (n + 1)]

lemma packMedia_extract_ge (now : ℕ → ℕ) (cards : List Flashcard) : ∀ (n : ℕ)
    (e : String × String), e ∈ (cards.enumFrom n).filterMap (mediaEntry now) →
      n ≤ extractIdx e.1 := by
  induction cards with
  | nil => intro n e he; simp at he
  | cons c rest ih =>
    intro n e he
    rw [show List.enumFrom n (c :: rest) = (n, c) :: List.enumFrom (n + 1) rest
        from rfl, List.filterMap_cons] at he
    cases himg : c.image with
    | none =>
      rw [show mediaEntry now (n, c) = none from by simp [mediaEntry, himg]] at he
      exact le_trans (by omega) (ih (n + 1) e he)
    | some img =>
      rw [show mediaEntry now (n, c)
          = some (mediaFileName (now n) n, (img.splitOn ",").getD 1 "")
          from by simp [mediaEntry, himg]] at he
      rcases List.mem_cons.mp he with he | he
      · rw [he]
        rw [show (mediaFileName (now n) n, (img.splitOn ",").getD 1 "").1
            = mediaFileName (now n) n from rfl, extractIdx_mediaFileName]
      · exact le_trans (by omega) (ih (n + 1) e he)

lemma packMedia_pairwise_aux (now : ℕ → ℕ) (cards : List Flashcard) : ∀ n : ℕ,
    ((cards.enumFrom n).filterMap (mediaEntry now)).Pairwise
      fun a b => a.1 ≠ b.1 := by
  induction cards with
  | nil => intro n; simp
  | cons c rest ih =>
    intro n
    rw [show List.enumFrom n (c :: rest) = (n, c) :: List.enumFrom (n + 1) rest
        from rfl, List.filterMap_cons]
    cases himg : c.image with
    | none =>
      rw [show mediaEntry now (n, c) = none from by simp [mediaEntry, himg]]
      exact ih (n + 1)
    | some img =>
      rw [show mediaEntry now (n, c)
          = some (mediaFileName (now n) n, (img.splitOn ",").getD 1 "")
          from by simp [mediaEntry, himg]]
      rw [List.pairwise_cons]
      refine ⟨?_, ih (n + 1)⟩
      intro b hb
      have hge := packMedia_extract_ge now rest (n + 1) b hb
      intro heq
      rw [show (mediaFileName (now n) n, (img.splitOn ",").getD 1 "").1
          = mediaFileName (now n) n from rfl] at heq
      rw [← heq, extractIdx_mediaFileName] at hge
      omega

lemma packMedia_mem_shape (now : ℕ → ℕ) (cards : List Flashcard)
    (e : String × String) (he : e ∈ packMediaEntries now cards) :
    ∃ i, e.1 = mediaFileName (now i) i := by
  unfold packMediaEntries at he
  rcases List.mem_filterMap.mp he with ⟨p, _, hmed⟩
  unfold mediaEntry at hmed
  cases himg : p.2.image with
  | none => rw [himg] at hmed; cases hmed
  | some img =>
    rw [himg] at hmed
    refine ⟨p.1, ?_⟩
    have := Option.some.inj hmed
    rw [← this]

/-- Claim C7: for every card list of which M cards carry a rendered image,
and every sequence of observed `Date.now()` timestamps, the archive bundle
contains exactly M media files plus exactly one `import.txt` TSV file plus
exactly one `README.txt` instructions file; no two cards' generated media
filenames collide (each embeds the card index and a timestamp); and for
every card with a rendered image the TSV front field embeds a reference to
its generated media filename, which names a file present in the archive. -/
theorem downloadAnkiPack_bundle (now : ℕ → ℕ) (cards : List Flashcard) :
    (downloadAnkiPack now cards).length
        = (cards.filter fun c => c.image.isSome).length + 2 ∧
    (packMediaEntries now cards).length
        = (cards.filter fun c => c.image.isSome).length ∧
    ((downloadAnkiPack now cards).map Prod.fst).count "import.txt" = 1 ∧
    ((downloadAnkiPack now cards).map Prod.fst).count "README.txt" = 1 ∧
    ((packMediaEntries now cards).Pairwise fun a b => a.1 ≠ b.1) ∧
    (∀ i card img, cards[i]? = some card → card.image = some img →
      packFront now i card = formatFieldForAnki card.front
          ++ "<br><br><img src=\"" ++ mediaFileName (now i) i ++ "\">" ∧
      mediaFileName (now i) i ∈ (downloadAnkiPack now cards).map Prod.fst) := by
  have hmedlen : (packMediaEntries now cards).length
      = (cards.filter fun c => c.image.isSome).length := by
    rw [show packMediaEntries now cards
        = (cards.enumFrom 0).filterMap (mediaEntry now) from rfl]
    exact packMedia_length_aux now cards 0
  have hno_import : ("import.txt" : String)
      ∉ (packMediaEntries now cards).map Prod.fst := by
    intro hmem
    rcases List.mem_map.mp hmem with ⟨e, he, hfst⟩
    rcases packMedia_mem_shape now cards e he with ⟨i, hi⟩
    rw [hi] at hfst
    exact mediaFileName_ne_import (now i) i hfst
  have hno_readme : ("README.txt" : String)
      ∉ (packMediaEntries now cards).map Prod.fst := by
    intro hmem
    rcases List.mem_map.mp hmem with ⟨e, he, hfst⟩
    rcases packMedia_mem_shape now cards e he with ⟨i, hi⟩
    rw [hi] at hfst
    exact mediaFileName_ne_readme (now i) i hfst
  refine ⟨?_, hmedlen, ?_, ?_, ?_, ?_⟩
  · unfold downloadAnkiPack
    rw [List.length_append, hmedlen]
    rfl
  · unfold downloadAnkiPack
    rw [List.map_append, List.count_append,
        List.count_eq_zero_of_not_mem hno_import]
    rfl
  · unfold downloadAnkiPack
    rw [List.map_append, List.count_append,
        List.count_eq_zero_of_not_mem hno_readme]
    rfl
  · rw [show packMediaEntries now cards
        = (cards.enumFrom 0).filterMap (mediaEntry now) from rfl]
    exact packMedia_pairwise_aux now cards 0
  · intro i card img hcard himg
    refine ⟨by simp [packFront, himg], ?_⟩
    have hpc : (i, card) ∈ cards.enum :=
      List.mk_mem_enum_iff_getElem?.mpr hcard
    have hment : (mediaFileName (now i) i, (img.splitOn ",").getD 1 "")
        ∈ packMediaEntries now cards :=
      List.mem_filterMap.mpr ⟨(i, card), hpc, by simp [mediaEntry, himg]⟩
    unfold downloadAnkiPack
    rw [List.map_append]
    exact List.mem_append_left _ (List.mem_map_of_mem Prod.fst hment)

/-- A concrete card carrying a rendered image, used as a test vector for
the archive bundle. -/
def sampleImageCard : Flashcard :=
  { id := "c1", front := "f", back := "b", tags := ["t"],
    boundingBox := some ⟨100, 100, 200, 200⟩, structureBoundingBox := none,
    image := some "data:image/png;base64,AAAA" }

/-- A concrete card without a rendered image, used as a test vector for the
archive bundle. -/
def samplePlainCard : Flashcard :=
  { id := "c2", front := "g", back := "h", tags := [], boundingBox := none,
    structureBoundingBox := none, image := none }

/-- Witness for C7 at a concrete two-card list (one card with a rendered
image) and the constant timestamp 5. -/
theorem downloadAnkiPack_bundle_witness :
    (([sampleImageCard, samplePlainCard] : List Flashcard)[0]?
      = some sampleImageCard) ∧
    (sampleImageCard.image = some "data:image/png;base64,AAAA") ∧
    (packFront (fun _ => 5) 0 sampleImageCard
        = formatFieldForAnki sampleImageCard.front ++ "<br><br><img src=\""
          ++ mediaFileName ((fun _ => 5) 0) 0 ++ "\">" ∧
     mediaFileName ((fun _ => 5) 0) 0 ∈
       (downloadAnkiPack (fun _ => 5)
         [sampleImageCard, samplePlainCard]).map Prod.fst) :=
  ⟨rfl, rfl,
   (downloadAnkiPack_bundle (fun _ => 5)
     [sampleImageCard, samplePlainCard]).2.2.2.2.2
       0 sampleImageCard "data:image/png;base64,AAAA" rfl rfl⟩
